import Mathlib

/-!
Verification of the AXTP reference implementation (`src/axtp.py`).

The Python source is shallowly embedded below.  Numeric scores (Python
floats) are modelled as rationals `ℚ`; Python's `round(x, 4)` is modelled
by `round4` (half-up rounding at the fourth decimal; Python uses
half-even, which differs only on exact ties at the fifth decimal and no
property stated here distinguishes the two).  Python dicts (insertion
ordered) are association lists `List (String × _)`; dict assignment keeps
the original position of an existing key and appends a fresh key at the
end, exactly as `dictInsert` does.  Wall-clock values (`datetime.now`)
and ISO-8601 parsing live in the Python standard library, outside this
repository; they are modelled as oracles: `TrustEngine.recency_of` stands
for the value computed by `compute_recency_factor`, and the separate
real-valued `compute_recency_factor` below takes the parsed age-in-days
(`now - fromisoformat(ts)`, `none` when parsing or subtraction raises)
as an explicit argument.  Audit-entry and receipt timestamps (never
inspected by any operation) are recorded as `""`.
-/

/-! ## Enums (`OutcomeStatus`, `ValidationStatus`, `ValidationType`, `ConflictResolution`) -/

inductive OutcomeStatus where
  | success
  | partial_success
  | failure
  | aborted
deriving DecidableEq

inductive ValidationStatus where
  | pending
  | validated
  | disputed
deriving DecidableEq

inductive ValidationType where
  | confirm
  | dispute
  | amend
deriving DecidableEq

inductive ConflictResolution where
  | latest_wins
  | consensus
  | admin_review
deriving DecidableEq

/-- `ValidationType.value` — the `.value` string of the Python `str` enum. -/
def ValidationType.value : ValidationType → String
  | .confirm => "confirm"
  | .dispute => "dispute"
  | .amend => "amend"

/-! ## ExperienceRecord

Only the fields the core operations read or write are embedded.  The
payload fields (`objective`, `environment`, `steps`, `pivots`, error
details, `effective_patterns`, `antipatterns`, `environmental_notes`,
`recommendations`, …) are opaque to deposit/retrieve/validate scoring and
filtering (they are only copied around), so they are omitted;
`result_summary` is kept as a representative of the copied payload. -/

structure ExperienceRecord where
  agent_id : String
  task_type : String
  outcome_status : OutcomeStatus
  xr_id : String
  timestamp : String
  result_summary : String := ""
  confidence_score : ℚ := 1/2
  validation_status : ValidationStatus := .pending
  validator_ids : List String := []
deriving DecidableEq

/-! ## Helpers for Python dicts as association lists -/

/-- `d.get(k)` / `k in d` lookup: the value stored under the key, if any. -/
def dictFind {β : Type} (l : List (String × β)) (k : String) : Option β :=
  (l.find? (fun kv => kv.1 = k)).map (·.2)

/-- `d[k] = v` on an insertion-ordered dict: an existing key keeps its
position and gets the new value; a fresh key is appended at the end. -/
def dictInsert {β : Type} (l : List (String × β)) (k : String) (v : β) :
    List (String × β) :=
  if l.any (fun kv => kv.1 = k) then
    l.map (fun kv => if kv.1 = k then (k, v) else kv)
  else
    l ++ [(k, v)]

/-- Python's `str.startswith`: code-point-wise prefix test. -/
def strStartsWith (s p : String) : Bool :=
  p.data.isPrefixOf s.data

/-- Python's `round(x, 4)`: rounding to four decimal places (see header
note on the half-even/half-up tie difference, immaterial here). -/
def round4 (x : ℚ) : ℚ :=
  ((round (x * 10000) : ℤ) : ℚ) / 10000

/-! ## TrustEngine -/

/-- The trust-scoring engine (`TrustEngine.__init__`).  `recency_of` is
the oracle for `compute_recency_factor` (wall clock, ISO parsing and
`math.exp` are external to the repository; only the returned value enters
the pool's algorithms). -/
structure TrustEngine where
  weight_reputation : ℚ := 3/10
  weight_validation : ℚ := 1/4
  weight_outcome : ℚ := 1/4
  weight_recency : ℚ := 1/10
  weight_consistency : ℚ := 1/10
  decay_rate : ℚ := 1/100
  agent_reputations : List (String × ℚ) := []
  outcome_feedback : List (String × List Bool) := []
  recency_of : String → ℚ := fun _ => 1/2

/-- `TrustEngine.get_agent_reputation`: stored value, defaulting to 0.5. -/
def TrustEngine.get_agent_reputation (e : TrustEngine) (agent_id : String) : ℚ :=
  (dictFind e.agent_reputations agent_id).getD (1/2)

/-- `TrustEngine.update_agent_reputation`: add `delta`, clamp to [0,1]. -/
def TrustEngine.update_agent_reputation (e : TrustEngine) (agent_id : String)
    (delta : ℚ) : TrustEngine :=
  let current := e.get_agent_reputation agent_id
  { e with agent_reputations :=
      dictInsert e.agent_reputations agent_id (max 0 (min 1 (current + delta))) }

/-- `TrustEngine.compute_validation_score`. -/
def TrustEngine.compute_validation_score (_e : TrustEngine)
    (xr : ExperienceRecord) : ℚ :=
  match xr.validation_status with
  | .validated => min 1 (7/10 + (1/10) * (xr.validator_ids.length : ℚ))
  | .disputed => max 0 (3/10 - (1/10) * (xr.validator_ids.length : ℚ))
  | .pending => 1/2

/-- `TrustEngine.compute_outcome_score`: fraction of positive feedback,
0.5 when none exists. -/
def TrustEngine.compute_outcome_score (e : TrustEngine) (xr_id : String) : ℚ :=
  let feedback := (dictFind e.outcome_feedback xr_id).getD []
  if feedback.isEmpty then 1/2
  else ((feedback.filter (fun f => f)).length : ℚ) / (feedback.length : ℚ)

/-- `TrustEngine.compute_trust_score`: weighted sum of the five
sub-scores, clamped to [0,1] and rounded to four decimals.  (The Python
parameter default `pool_xrs=None` is never used by the pool, which always
passes a list; `if pool_xrs:` is the emptiness test on that list.) -/
def TrustEngine.compute_trust_score (e : TrustEngine) (xr : ExperienceRecord)
    (pool_xrs : List ExperienceRecord) : ℚ :=
  let reputation := e.get_agent_reputation xr.agent_id
  let validation := e.compute_validation_score xr
  let outcome := e.compute_outcome_score xr.xr_id
  let recency := e.recency_of xr.timestamp
  let same_type := pool_xrs.filter
    (fun x => x.task_type = xr.task_type ∧ x.xr_id ≠ xr.xr_id)
  let consistency : ℚ :=
    if pool_xrs.isEmpty then 1/2
    else if same_type.isEmpty then 1/2
    else ((same_type.filter (fun x => x.outcome_status = xr.outcome_status)).length : ℚ)
          / (same_type.length : ℚ)
  let score :=
    e.weight_reputation * reputation +
    e.weight_validation * validation +
    e.weight_outcome * outcome +
    e.weight_recency * recency +
    e.weight_consistency * consistency
  round4 (max 0 (min 1 score))

/-! ## The real-valued recency computation (for the claims about its range)

`TrustEngine.compute_recency_factor` in the source parses the timestamp
with `datetime.fromisoformat`, subtracts it from `datetime.now`, and
applies `math.exp(-decay_rate * age_days)`; `ValueError`/`TypeError`
(malformed string, or a naive/aware subtraction mismatch) yields 0.5.
`age_days_of` is the oracle for `(now - fromisoformat(ts)).total_seconds()
/ 86400`, `none` when the try-block raises. -/

noncomputable def compute_recency_factor (decay_rate : ℝ)
    (age_days_of : String → Option ℝ) (timestamp : String) : ℝ :=
  match age_days_of timestamp with
  | some age_days => Real.exp (-decay_rate * age_days)
  | none => 1/2

/-! ## ExperiencePool -/

/-- One entry of the append-only audit log (`ExperiencePool._log` appends
a dict with these keys; the wall-clock timestamp is opaque, see header). -/
structure AuditEntry where
  timestamp : String
  operation : String
  actor : String
  xr_ids : List String
  outcome : String
deriving DecidableEq

/-- `ExperiencePool.__init__`.  `records` and `audit_log` are the Python
`_records` (an insertion-ordered dict) and `_audit_log`; `pool_id` is the
externally generated uuid. -/
structure ExperiencePool where
  pool_id : String
  pool_name : String
  scope : String := "global"
  validation_required : Bool := true
  min_confidence_threshold : ℚ := 3/10
  conflict_resolution : ConflictResolution := .latest_wins
  max_records : ℕ := 10000
  records : List (String × ExperienceRecord) := []
  audit_log : List AuditEntry := []
  trust_engine : TrustEngine := {}

/-- `ExperiencePool._log`: append one audit entry. -/
def ExperiencePool._log (p : ExperiencePool) (operation : String) (actor : String)
    (xr_ids : List String) (outcome : String) : ExperiencePool :=
  { p with audit_log := p.audit_log ++
      [{ timestamp := "", operation := operation, actor := actor,
         xr_ids := xr_ids, outcome := outcome }] }

/-- The key Python's eviction minimizes: `(xr.confidence_score, xr.timestamp)`. -/
def evictKey (xr : ExperienceRecord) : ℚ × String :=
  (xr.confidence_score, xr.timestamp)

/-- Python's `<` on `(float, str)` pairs: lexicographic. -/
def evictLt (a b : ℚ × String) : Prop :=
  a.1 < b.1 ∨ (a.1 = b.1 ∧ a.2 < b.2)

instance (a b : ℚ × String) : Decidable (evictLt a b) := by
  unfold evictLt; infer_instance

/-- `min(values, key=...)`: the first element whose key is minimal
(Python's `min` replaces the running minimum only on strict `<`). -/
def minByKey (hd : ExperienceRecord) (tl : List ExperienceRecord) : ExperienceRecord :=
  tl.foldl (fun best x => if evictLt (evictKey x) (evictKey best) then x else best) hd

/-- `ExperiencePool._evict_oldest`: remove the record with the smallest
`(confidence_score, timestamp)` and log the eviction; no-op on an empty
pool. -/
def ExperiencePool._evict_oldest (p : ExperiencePool) : ExperiencePool :=
  match p.records with
  | [] => p
  | kv :: rest =>
    let worst := minByKey kv.2 (rest.map (·.2))
    let p' := { p with records := p.records.eraseP (fun kv' => kv'.1 = worst.xr_id) }
    p'._log "evict" "system" [worst.xr_id] "capacity limit reached"

/-- The deposit receipt: the dict
`{"status": "rejected", "reason": ...}` or `{"status": "accepted",
"xr_id": ..., "pool_id": ..., "confidence_score": ..., "timestamp": ...}`
(the receipt wall-clock timestamp is opaque and omitted). -/
inductive DepositResult where
  | rejected (reason : String)
  | accepted (xr_id : String) (pool_id : String) (confidence_score : ℚ)
deriving DecidableEq

/-- The `"status"` field of a deposit receipt. -/
def DepositResult.status : DepositResult → String
  | .rejected _ => "rejected"
  | .accepted _ _ _ => "accepted"

/-- `ExperiencePool.deposit`: schema gate on `agent_id`/`task_type`,
eviction at capacity, scoring against the pre-insertion pool, dict store
under `xr.xr_id`, audit entry, receipt. -/
def ExperiencePool.deposit (p : ExperiencePool) (xr : ExperienceRecord) :
    DepositResult × ExperiencePool :=
  if xr.agent_id = "" ∨ xr.task_type = "" then
    (.rejected "Missing required fields (agent_id, task_type)", p)
  else
    let p1 := if p.max_records ≤ p.records.length then p._evict_oldest else p
    let conf := p1.trust_engine.compute_trust_score xr (p1.records.map (·.2))
    let xr' := { xr with confidence_score := conf }
    let p2 := { p1 with records := dictInsert p1.records xr.xr_id xr' }
    let p3 := p2._log "deposit" xr.agent_id [xr.xr_id] "accepted"
    (.accepted xr.xr_id p.pool_id conf, p3)

/-- The two retrieval filters applied by `retrieve` before rescoring:
task-type (skipped when the argument is absent or the empty string, both
falsy in Python; otherwise exact match or `startswith(task_type + ".")`)
and outcome status (skipped when absent; every `OutcomeStatus` value is a
non-empty string, hence truthy). -/
def isCandidate (task_type : Option String) (outcome_filter : Option OutcomeStatus)
    (xr : ExperienceRecord) : Bool :=
  (match task_type with
   | some t => if t = "" then true
               else (xr.task_type = t || strStartsWith xr.task_type (t ++ "."))
   | none => true) &&
  (match outcome_filter with
   | some o => xr.outcome_status = o
   | none => true)

/-- The descending-relevance comparison used by
`scored.sort(key=lambda x: x[0], reverse=True)`. -/
def relDesc : ℚ × ExperienceRecord → ℚ × ExperienceRecord → Prop :=
  fun a b => b.1 ≤ a.1

instance (a b : ℚ × ExperienceRecord) : Decidable (relDesc a b) := by
  unfold relDesc; infer_instance

instance : IsTotal (ℚ × ExperienceRecord) relDesc :=
  ⟨fun a b => le_total b.1 a.1⟩

instance : IsTrans (ℚ × ExperienceRecord) relDesc :=
  ⟨fun _ _ _ h1 h2 => le_trans h2 h1⟩

/-- One element of `retrieve`'s result list: the reduced projection dict.
`outcome_status` is stored as the enum (the source stores its `.value`
string, a bijective image); the `learnings` sub-dict (patterns,
recommendations — opaque copied payload) is omitted. -/
structure RetrieveItem where
  xr_id : String
  relevance_score : ℚ
  confidence_score : ℚ
  task_type : String
  outcome_status : OutcomeStatus
  result_summary : String
deriving DecidableEq

/-- `ExperiencePool.retrieve`: filter, rescore (the new scores are stored
back into the pool's records), confidence-threshold filter, rank by
`(1 - recency_weight) * confidence + recency_weight * recency`
descending, truncate, project, audit.  The Python defaults are
`min_confidence=None` (falls back to the pool threshold via `is None`),
`max_results=10`, `recency_weight=0.5`, `agent_id="anonymous"`;
arguments are explicit here. -/
def ExperiencePool.retrieve (p : ExperiencePool) (task_type : Option String)
    (min_confidence : Option ℚ) (max_results : ℕ) (recency_weight : ℚ)
    (outcome_filter : Option OutcomeStatus) (agent_id : String) :
    List RetrieveItem × ExperiencePool :=
  let min_conf := min_confidence.getD p.min_confidence_threshold
  let pool_xrs := p.records.map (·.2)
  let rescore := fun (xr : ExperienceRecord) =>
    { xr with confidence_score := p.trust_engine.compute_trust_score xr pool_xrs }
  let records' := p.records.map (fun kv =>
    if isCandidate task_type outcome_filter kv.2 then (kv.1, rescore kv.2) else kv)
  let candidates :=
    ((pool_xrs.filter (isCandidate task_type outcome_filter)).map rescore).filter
      (fun xr => min_conf ≤ xr.confidence_score)
  let scored := candidates.map (fun xr =>
    ((1 - recency_weight) * xr.confidence_score
       + recency_weight * p.trust_engine.recency_of xr.timestamp, xr))
  let sorted := scored.insertionSort relDesc
  let results := (sorted.take max_results).map (fun s =>
    { xr_id := s.2.xr_id, relevance_score := round4 s.1,
      confidence_score := s.2.confidence_score, task_type := s.2.task_type,
      outcome_status := s.2.outcome_status,
      result_summary := s.2.result_summary : RetrieveItem })
  let p' := ExperiencePool._log { p with records := records' } "retrieve" agent_id
    (results.map (·.xr_id)) ("returned " ++ toString results.length ++ " results")
  (results, p')

/-- `validate`'s returned dict: `{"status": "error"|"rejected", "reason"}`
or `{"status": "accepted", "xr_id", "new_confidence", "validation_status"}`. -/
inductive ValidateResult where
  | error (reason : String)
  | rejected (reason : String)
  | accepted (xr_id : String) (new_confidence : ℚ) (validation_status : ValidationStatus)
deriving DecidableEq

/-- The `"status"` field of a validation outcome. -/
def ValidateResult.status : ValidateResult → String
  | .error _ => "error"
  | .rejected _ => "rejected"
  | .accepted _ _ _ => "accepted"

/-- `ExperiencePool.validate`: not-found check, self-validation check,
status/validator transition by `validation_type`, reputation adjustment,
trust recomputation against the pool with the updated record (the Python
code mutates the stored record in place, so the scoring pass at the end
sees the new `validator_ids`/`validation_status`), audit entry. -/
def ExperiencePool.validate (p : ExperiencePool) (xr_id : String)
    (validator_id : String) (validation_type : ValidationType)
    (evidence : String) : ValidateResult × ExperiencePool :=
  match dictFind p.records xr_id with
  | none => (.error "XR not found", p)
  | some xr =>
    if validator_id = xr.agent_id then
      (.rejected "Self-validation not permitted", p)
    else
      let xr1 :=
        match validation_type with
        | .confirm =>
          let ids := xr.validator_ids ++ [validator_id]
          { xr with validator_ids := ids,
                    validation_status :=
                      if 2 ≤ ids.length then .validated else xr.validation_status }
        | .dispute =>
          { xr with validator_ids := xr.validator_ids ++ [validator_id],
                    validation_status := .disputed }
        | .amend =>
          { xr with validator_ids := xr.validator_ids ++ [validator_id] }
      let engine :=
        match validation_type with
        | .confirm => p.trust_engine.update_agent_reputation xr.agent_id (5/100)
        | .dispute => p.trust_engine.update_agent_reputation xr.agent_id (-(5/100))
        | .amend => p.trust_engine
      let mid_records := p.records.map (fun kv => if kv.1 = xr_id then (kv.1, xr1) else kv)
      let conf := engine.compute_trust_score xr1 (mid_records.map (·.2))
      let xr2 := { xr1 with confidence_score := conf }
      let new_records := p.records.map (fun kv => if kv.1 = xr_id then (kv.1, xr2) else kv)
      let p' := { p with records := new_records, trust_engine := engine }
      let p'' := p'._log "validate" validator_id [xr_id]
        (validation_type.value ++ ": " ++ evidence.take 100)
      (.accepted xr_id conf xr2.validation_status, p'')

/-! ## Basic lemmas about the helpers -/

theorem round4_nonneg {x : ℚ} (h : 0 ≤ x) : 0 ≤ round4 x := by
  unfold round4
  apply div_nonneg _ (by norm_num)
  rw [round_eq]
  have : (0 : ℤ) ≤ ⌊x * 10000 + 1 / 2⌋ :=
    Int.floor_nonneg.mpr (by positivity)
  exact_mod_cast this

theorem round4_le_one {x : ℚ} (h : x ≤ 1) : round4 x ≤ 1 := by
  unfold round4
  rw [div_le_one (by norm_num), round_eq]
  have : ⌊x * 10000 + 1 / 2⌋ < (10001 : ℤ) := by
    rw [Int.floor_lt]
    push_cast
    nlinarith
  have h2 : ⌊x * 10000 + 1 / 2⌋ ≤ (10000 : ℤ) := by omega
  exact_mod_cast h2

theorem round4_mono {x y : ℚ} (h : x ≤ y) : round4 x ≤ round4 y := by
  unfold round4
  rw [div_le_div_iff_of_pos_right (by norm_num)]
  rw [round_eq, round_eq]
  have : ⌊x * 10000 + 1 / 2⌋ ≤ ⌊y * 10000 + 1 / 2⌋ :=
    Int.floor_mono (by nlinarith)
  exact_mod_cast this

theorem dictFind_dictInsert_self {β : Type} (l : List (String × β)) (k : String)
    (v : β) : dictFind (dictInsert l k v) k = some v := by
  unfold dictFind dictInsert
  by_cases h : l.any (fun kv => kv.1 = k)
  · rw [if_pos h]
    induction l with
    | nil => simp at h
    | cons a t ih =>
      by_cases ha : a.1 = k
      · simp [List.find?, ha]
      · simp only [List.any_cons, decide_eq_true_eq, Bool.or_eq_true] at h
        rcases h with h | h
        · exact absurd h ha
        · simpa [List.find?, ha] using ih (by simpa using h)
  · rw [if_neg h]
    have hnone : l.find? (fun kv => decide (kv.1 = k)) = none := by
      rw [List.find?_eq_none]
      intro x hx hxk
      exact h (List.any_eq_true.mpr ⟨x, hx, hxk⟩)
    rw [List.find?_append, hnone]
    simp [List.find?]

theorem length_dictInsert_le {β : Type} (l : List (String × β)) (k : String)
    (v : β) : (dictInsert l k v).length ≤ l.length + 1 := by
  unfold dictInsert
  by_cases h : l.any (fun kv => kv.1 = k)
  · rw [if_pos h, List.length_map]; omega
  · rw [if_neg h, List.length_append]; simp

theorem length_dictInsert_of_find {β : Type} (l : List (String × β)) (k : String)
    {v' : β} (h : dictFind l k = some v') (w : β) :
    (dictInsert l k w).length = l.length := by
  unfold dictInsert
  have hany : l.any (fun kv => kv.1 = k) = true := by
    unfold dictFind at h
    rcases Option.map_eq_some'.mp h with ⟨kv, hkv, _⟩
    have := List.find?_some hkv
    have hmem := List.mem_of_find?_eq_some hkv
    exact List.any_eq_true.mpr ⟨kv, hmem, this⟩
  rw [if_pos hany, List.length_map]

theorem dictFind_update {β : Type} (l : List (String × β)) (k : String)
    {v : β} (w : β) (h : dictFind l k = some v) :
    dictFind (l.map (fun kv => if kv.1 = k then (kv.1, w) else kv)) k = some w := by
  induction l with
  | nil => simp [dictFind] at h
  | cons a t ih =>
    by_cases ha : a.1 = k
    · simp [dictFind, List.find?, ha]
    · unfold dictFind at h ⊢
      rw [List.find?_cons_of_neg _ (by simpa using ha)] at h
      rw [List.map_cons, List.find?_cons_of_neg _ (by simp [ha])]
      exact ih h

/-! ## Order facts for the eviction key -/

theorem evictLt_irrefl (a : ℚ × String) : ¬ evictLt a a := by
  unfold evictLt
  rintro (h | ⟨-, h⟩) <;> exact lt_irrefl _ h

theorem evictLt_trans {a b c : ℚ × String} (h1 : evictLt a b) (h2 : evictLt b c) :
    evictLt a c := by
  unfold evictLt at *
  rcases h1 with h1 | ⟨e1, h1⟩ <;> rcases h2 with h2 | ⟨e2, h2⟩
  · exact Or.inl (lt_trans h1 h2)
  · exact Or.inl (e2 ▸ h1)
  · exact Or.inl (e1 ▸ h2)
  · exact Or.inr ⟨e1.trans e2, lt_trans h1 h2⟩

theorem evictLt_trichot (a b : ℚ × String) : evictLt a b ∨ a = b ∨ evictLt b a := by
  unfold evictLt
  rcases lt_trichotomy a.1 b.1 with h | h | h
  · exact Or.inl (Or.inl h)
  · rcases lt_trichotomy a.2 b.2 with h2 | h2 | h2
    · exact Or.inl (Or.inr ⟨h, h2⟩)
    · exact Or.inr (Or.inl (Prod.ext h h2))
    · exact Or.inr (Or.inr (Or.inr ⟨h.symm, h2⟩))
  · exact Or.inr (Or.inr (Or.inl h))

theorem minByKey_cons (hd y : ExperienceRecord) (t : List ExperienceRecord) :
    minByKey hd (y :: t) =
      minByKey (if evictLt (evictKey y) (evictKey hd) then y else hd) t := rfl

theorem minByKey_mem (hd : ExperienceRecord) (tl : List ExperienceRecord) :
    minByKey hd tl ∈ hd :: tl := by
  induction tl generalizing hd with
  | nil => simp [minByKey]
  | cons y t ih =>
    rw [minByKey_cons]
    have h := ih (if evictLt (evictKey y) (evictKey hd) then y else hd)
    by_cases hc : evictLt (evictKey y) (evictKey hd)
    · rw [if_pos hc] at h ⊢
      rcases List.mem_cons.mp h with h1 | h1
      · rw [h1]; simp
      · simp [h1]
    · rw [if_neg hc] at h ⊢
      rcases List.mem_cons.mp h with h1 | h1
      · rw [h1]; simp
      · simp [h1]

theorem minByKey_min (hd : ExperienceRecord) (tl : List ExperienceRecord) :
    ∀ x ∈ hd :: tl, ¬ evictLt (evictKey x) (evictKey (minByKey hd tl)) := by
  induction tl generalizing hd with
  | nil =>
    intro x hx
    rcases List.mem_cons.mp hx with h | h
    · rw [h]; simpa [minByKey] using evictLt_irrefl (evictKey hd)
    · simp at h
  | cons y t ih =>
    intro x hx
    rw [minByKey_cons]
    by_cases hc : evictLt (evictKey y) (evictKey hd)
    · rw [if_pos hc]
      rcases List.mem_cons.mp hx with h1 | h1
      · rw [h1]
        intro hlt
        exact ih y y (by simp) (evictLt_trans hc hlt)
      · exact ih y x h1
    · rw [if_neg hc]
      rcases List.mem_cons.mp hx with h1 | h1
      · rw [h1]
        exact ih hd hd (by simp)
      · rcases List.mem_cons.mp h1 with h2 | h2
        · rw [h2]
          intro hlt
          rcases evictLt_trichot (evictKey y) (evictKey hd) with h3 | h3 | h3
          · exact hc h3
          · exact ih hd hd (by simp) (h3 ▸ hlt)
          · exact ih hd hd (by simp) (evictLt_trans h3 hlt)
        · exact ih hd x (by simp [h2])

theorem eq_of_mem_of_nodup_keys {β : Type} {l : List (String × β)}
    (hn : (l.map (·.1)).Nodup) {a b : String × β}
    (ha : a ∈ l) (hb : b ∈ l) (hk : a.1 = b.1) : a = b := by
  induction l with
  | nil => simp at ha
  | cons c t ih =>
    simp only [List.map_cons, List.nodup_cons] at hn
    rcases List.mem_cons.mp ha with ha1 | ha1 <;>
      rcases List.mem_cons.mp hb with hb1 | hb1
    · rw [ha1, hb1]
    · exfalso
      apply hn.1
      rw [ha1] at hk
      exact hk ▸ List.mem_map_of_mem (·.1) hb1
    · exfalso
      apply hn.1
      rw [hb1] at hk
      exact hk ▸ List.mem_map_of_mem (·.1) ha1
    · exact ih hn.2 ha1 hb1

/-! ## Behaviour of `_evict_oldest` -/

theorem evict_oldest_nil (p : ExperiencePool) (h : p.records = []) :
    p._evict_oldest = p := by
  unfold ExperiencePool._evict_oldest
  rw [h]

theorem evict_oldest_audit (p : ExperiencePool) (h : p.records ≠ []) :
    p._evict_oldest.audit_log.length = p.audit_log.length + 1 := by
  cases hr : p.records with
  | nil => exact absurd hr h
  | cons kv0 rest =>
    unfold ExperiencePool._evict_oldest
    rw [hr]
    simp [ExperiencePool._log]

/-- At eviction time the pool dict splits as `l₁ ++ kv :: l₂` where `kv`
holds a record with the smallest `(confidence_score, timestamp)` key, and
exactly that entry is removed.  The two hypotheses are the pool
invariants maintained by `deposit`/`validate`/`retrieve`: every dict key
is its record's `xr_id`, and keys are unique (Python dict keys always
are). -/
theorem evict_oldest_atomic (p : ExperiencePool)
    (hkeys : ∀ kv ∈ p.records, kv.1 = kv.2.xr_id)
    (huniq : (p.records.map (·.1)).Nodup)
    (hne : p.records ≠ []) :
    ∃ kv l₁ l₂, p.records = l₁ ++ kv :: l₂ ∧
      (∀ kv' ∈ p.records, ¬ evictLt (evictKey kv'.2) (evictKey kv.2)) ∧
      p._evict_oldest.records = l₁ ++ l₂ ∧
      p._evict_oldest.records.length + 1 = p.records.length := by
  obtain ⟨kv0, rest, hrec⟩ : ∃ kv0 rest, p.records = kv0 :: rest := by
    cases hr : p.records with
    | nil => exact absurd hr hne
    | cons a t => exact ⟨a, t, rfl⟩
  have hmem' : minByKey kv0.2 (rest.map (·.2)) ∈ (kv0 :: rest).map (·.2) := by
    simpa using minByKey_mem kv0.2 (rest.map (·.2))
  obtain ⟨kve, hkve_mem, hkve⟩ := List.mem_map.mp hmem'
  have hkve_mem' : kve ∈ p.records := hrec ▸ hkve_mem
  have hkey : kve.1 = (minByKey kv0.2 (rest.map (·.2))).xr_id := by
    rw [hkeys kve hkve_mem', hkve]
  have hpred :
      (fun kv' : String × ExperienceRecord =>
        decide (kv'.1 = (minByKey kv0.2 (rest.map (·.2))).xr_id)) kve = true := by
    simp [hkey]
  obtain ⟨a, l₁, l₂, hl1, hpa, hsplit, herase⟩ :=
    @List.exists_of_eraseP (String × ExperienceRecord)
      (fun kv' => decide (kv'.1 = (minByKey kv0.2 (rest.map (·.2))).xr_id))
      p.records kve hkve_mem' hpred
  have ha_mem : a ∈ p.records := by rw [hsplit]; simp
  have hak : a.1 = (minByKey kv0.2 (rest.map (·.2))).xr_id := by simpa using hpa
  have haekve : a = kve :=
    eq_of_mem_of_nodup_keys huniq ha_mem hkve_mem' (by rw [hak, hkey])
  have hrecords : p._evict_oldest.records =
      p.records.eraseP
        (fun kv' => kv'.1 = (minByKey kv0.2 (rest.map (·.2))).xr_id) := by
    unfold ExperiencePool._evict_oldest
    rw [hrec]
    simp [ExperiencePool._log]
  refine ⟨kve, l₁, l₂, by rw [← haekve]; exact hsplit, ?_, ?_, ?_⟩
  · intro kv' hkv'
    have hv : kv'.2 ∈ kv0.2 :: rest.map (·.2) := by
      rw [hrec] at hkv'
      rcases List.mem_cons.mp hkv' with h | h
      · rw [h]; simp
      · exact List.mem_cons_of_mem _ (List.mem_map_of_mem _ h)
    have hmin := minByKey_min kv0.2 (rest.map (·.2)) kv'.2 hv
    rw [hkve]
    exact hmin
  · exact hrecords.trans herase
  · rw [hrecords, herase, hsplit]
    simp [List.length_append]
    omega

/-- Length version of `evict_oldest_atomic` needing only the key
invariant: a non-empty pool loses exactly one entry. -/
theorem evict_oldest_length (p : ExperiencePool)
    (hkeys : ∀ kv ∈ p.records, kv.1 = kv.2.xr_id)
    (hne : p.records ≠ []) :
    p._evict_oldest.records.length + 1 = p.records.length := by
  obtain ⟨kv0, rest, hrec⟩ : ∃ kv0 rest, p.records = kv0 :: rest := by
    cases hr : p.records with
    | nil => exact absurd hr hne
    | cons a t => exact ⟨a, t, rfl⟩
  have hmem' : minByKey kv0.2 (rest.map (·.2)) ∈ (kv0 :: rest).map (·.2) := by
    simpa using minByKey_mem kv0.2 (rest.map (·.2))
  obtain ⟨kve, hkve_mem, hkve⟩ := List.mem_map.mp hmem'
  have hkve_mem' : kve ∈ p.records := hrec ▸ hkve_mem
  have hkey : kve.1 = (minByKey kv0.2 (rest.map (·.2))).xr_id := by
    rw [hkeys kve hkve_mem', hkve]
  have hrecords : p._evict_oldest.records =
      p.records.eraseP
        (fun kv' => kv'.1 = (minByKey kv0.2 (rest.map (·.2))).xr_id) := by
    unfold ExperiencePool._evict_oldest
    rw [hrec]
    simp [ExperiencePool._log]
  rw [hrecords, List.length_eraseP_of_mem hkve_mem' (by simp [hkey])]
  rw [hrec]
  simp

/-- `_evict_oldest` either leaves the dict unchanged (empty pool) or
removes entries matching one predicate. -/
theorem evict_oldest_records_sub (p : ExperiencePool) :
    p._evict_oldest.records = p.records ∨
    ∃ q : String × ExperienceRecord → Bool,
      p._evict_oldest.records = p.records.eraseP q := by
  cases hr : p.records with
  | nil =>
    left
    exact (congrArg ExperiencePool.records (evict_oldest_nil p hr)).trans hr
  | cons kv0 rest =>
    right
    refine ⟨fun kv' => kv'.1 = (minByKey kv0.2 (rest.map (·.2))).xr_id, ?_⟩
    unfold ExperiencePool._evict_oldest
    rw [hr]
    simp [ExperiencePool._log]

/-! ## Concrete fixtures used by witnesses and counterexamples -/

/-- A well-formed record as an agent would deposit it. -/
def xrBase : ExperienceRecord :=
  { agent_id := "a", task_type := "x", outcome_status := .success,
    xr_id := "r1", timestamp := "T" }

/-- A record violating the schema gate (empty `agent_id`). -/
def xrNoAgent : ExperienceRecord :=
  { agent_id := "", task_type := "x", outcome_status := .success,
    xr_id := "r2", timestamp := "T" }

/-- `xrBase` after one dispute: disputed with one validator entry. -/
def xrDisp1 : ExperienceRecord :=
  { xrBase with validation_status := .disputed, validator_ids := ["v1"] }

/-- `xrBase` after one amend: still pending, one validator entry. -/
def xrPend1 : ExperienceRecord :=
  { xrBase with validator_ids := ["v1"] }

/-- A freshly constructed empty pool. -/
def poolEmpty : ExperiencePool :=
  { pool_id := "p", pool_name := "n" }

/-- An empty pool configured with `max_records = 0`. -/
def poolCap0 : ExperiencePool :=
  { pool_id := "p", pool_name := "n", max_records := 0 }

/-- A pool holding just `xrBase`. -/
def pool1 : ExperiencePool :=
  { pool_id := "p", pool_name := "n", records := [("r1", xrBase)] }

/-- A pool holding `xrBase` and already at its capacity of one. -/
def poolCap1 : ExperiencePool :=
  { pool_id := "p", pool_name := "n", max_records := 1,
    records := [("r1", xrBase)] }

/-- A pool holding the disputed record `xrDisp1`. -/
def poolDisp : ExperiencePool :=
  { pool_id := "p", pool_name := "n", records := [("r1", xrDisp1)] }

/-- A pool holding the pending one-entry record `xrPend1`. -/
def poolPend : ExperiencePool :=
  { pool_id := "p", pool_name := "n", records := [("r1", xrPend1)] }

/-! ## Claim C10 -/

/-- Claim C10: for every record with empty `agent_id` or empty
`task_type`, `deposit` returns status rejected and leaves the pool (its
record collection included) entirely unchanged — no eviction even at
capacity, no confidence score computed or written. -/
theorem claim_C10_deposit_rejects_missing_fields (p : ExperiencePool)
    (xr : ExperienceRecord) (h : xr.agent_id = "" ∨ xr.task_type = "") :
    (p.deposit xr).1.status = "rejected" ∧
    (p.deposit xr).2 = p ∧
    (p.deposit xr).2.records = p.records := by
  unfold ExperiencePool.deposit
  rw [if_pos h]
  exact ⟨rfl, rfl, rfl⟩

/-- Claim C10, witness: depositing `xrNoAgent` into a concrete pool. -/
theorem claim_C10_witness :
    (poolEmpty.deposit xrNoAgent).1.status = "rejected" ∧
    (poolEmpty.deposit xrNoAgent).2 = poolEmpty ∧
    (poolEmpty.deposit xrNoAgent).2.records = poolEmpty.records :=
  claim_C10_deposit_rejects_missing_fields poolEmpty xrNoAgent (Or.inl rfl)

/-! ## Claim C5 -/

/-- Claim C5: a validate call whose `validator_id` equals the stored
record's `agent_id` returns a rejection and leaves the pool unchanged —
in particular the record's `validator_ids`, `validation_status` and
`confidence_score`, and the producing agent's reputation, are untouched. -/
theorem claim_C5_self_validation_rejected (p : ExperiencePool)
    (xr_id validator_id : String) (ty : ValidationType) (ev : String)
    (xr : ExperienceRecord)
    (hfind : dictFind p.records xr_id = some xr)
    (hself : validator_id = xr.agent_id) :
    (p.validate xr_id validator_id ty ev).1.status = "rejected" ∧
    (p.validate xr_id validator_id ty ev).2 = p ∧
    dictFind (p.validate xr_id validator_id ty ev).2.records xr_id = some xr ∧
    (p.validate xr_id validator_id ty ev).2.trust_engine.get_agent_reputation xr.agent_id
      = p.trust_engine.get_agent_reputation xr.agent_id := by
  have hp : p.validate xr_id validator_id ty ev =
      (.rejected "Self-validation not permitted", p) := by
    unfold ExperiencePool.validate
    rw [hfind, hself]
    simp
  rw [hp]
  exact ⟨rfl, rfl, hfind, rfl⟩

/-- Claim C5, witness: the producing agent `"a"` tries to confirm its own
record. -/
theorem claim_C5_witness :
    (pool1.validate "r1" "a" .confirm "looks right").1.status = "rejected" ∧
    (pool1.validate "r1" "a" .confirm "looks right").2 = pool1 ∧
    dictFind (pool1.validate "r1" "a" .confirm "looks right").2.records "r1"
      = some xrBase ∧
    (pool1.validate "r1" "a" .confirm "looks right").2.trust_engine.get_agent_reputation
        xrBase.agent_id
      = pool1.trust_engine.get_agent_reputation xrBase.agent_id :=
  claim_C5_self_validation_rejected pool1 "r1" "a" .confirm "looks right" xrBase
    rfl rfl

/-! ## Projections of an applied `validate` (found record, not self-validation) -/

/-- Every applied validation (any type) appends exactly one audit entry. -/
theorem validate_applied_audit (p : ExperiencePool) (xr_id v : String)
    (ty : ValidationType) (ev : String) (xr : ExperienceRecord)
    (hfind : dictFind p.records xr_id = some xr)
    (hns : v ≠ xr.agent_id) :
    (p.validate xr_id v ty ev).2.audit_log.length = p.audit_log.length + 1 := by
  simp only [ExperiencePool.validate, hfind]
  rw [if_neg hns]
  cases ty <;> simp [ExperiencePool._log]

/-- Every applied validation returns status `"accepted"`. -/
theorem validate_applied_status (p : ExperiencePool) (xr_id v : String)
    (ty : ValidationType) (ev : String) (xr : ExperienceRecord)
    (hfind : dictFind p.records xr_id = some xr)
    (hns : v ≠ xr.agent_id) :
    (p.validate xr_id v ty ev).1.status = "accepted" := by
  simp only [ExperiencePool.validate, hfind]
  rw [if_neg hns]
  cases ty <;> rfl

/-- The stored record's status after an applied `confirm`: `validated`
whenever the appended `validator_ids` reach two entries, regardless of
the previous status. -/
theorem validate_confirm_status (p : ExperiencePool) (xr_id v ev : String)
    (xr : ExperienceRecord)
    (hfind : dictFind p.records xr_id = some xr)
    (hns : v ≠ xr.agent_id) :
    (dictFind (p.validate xr_id v .confirm ev).2.records xr_id).map
        (·.validation_status)
      = some (if 2 ≤ xr.validator_ids.length + 1 then .validated
              else xr.validation_status) := by
  simp only [ExperiencePool.validate, hfind]
  rw [if_neg hns]
  simp only [ExperiencePool._log]
  simp only [dictFind_update p.records xr_id _ hfind]
  simp

/-- The stored record's status after an applied `dispute` is `disputed`. -/
theorem validate_dispute_status (p : ExperiencePool) (xr_id v ev : String)
    (xr : ExperienceRecord)
    (hfind : dictFind p.records xr_id = some xr)
    (hns : v ≠ xr.agent_id) :
    (dictFind (p.validate xr_id v .dispute ev).2.records xr_id).map
        (·.validation_status) = some .disputed := by
  simp only [ExperiencePool.validate, hfind]
  rw [if_neg hns]
  simp only [ExperiencePool._log]
  simp only [dictFind_update p.records xr_id _ hfind]
  simp

/-- The stored record's status after an applied `amend` is unchanged. -/
theorem validate_amend_status (p : ExperiencePool) (xr_id v ev : String)
    (xr : ExperienceRecord)
    (hfind : dictFind p.records xr_id = some xr)
    (hns : v ≠ xr.agent_id) :
    (dictFind (p.validate xr_id v .amend ev).2.records xr_id).map
        (·.validation_status) = some xr.validation_status := by
  simp only [ExperiencePool.validate, hfind]
  rw [if_neg hns]
  simp only [ExperiencePool._log]
  simp only [dictFind_update p.records xr_id _ hfind]
  simp

/-! ## Claim C1 -/

/-- Claim C1, counterexample: the record `xrDisp1` is disputed with one
accumulated validator entry; a confirm from `"v2"` (not the producer)
moves it to `validated`, contradicting "no validate call moves a disputed
record back to validated". -/
theorem claim_C1_counterexample :
    xrDisp1.validation_status = .disputed ∧
    "v2" ≠ xrDisp1.agent_id ∧
    (dictFind (poolDisp.validate "r1" "v2" .confirm "").2.records "r1").map
      (·.validation_status) = some .validated := by
  refine ⟨rfl, by decide, ?_⟩
  simp [poolDisp, xrDisp1, xrBase, ExperiencePool.validate, dictFind,
    ExperiencePool._log]

/-- Claim C1, amended: on a disputed record, a non-self `confirm` moves
the record to `validated` exactly when the appended `validator_ids` reach
two entries (i.e. at least one entry had accumulated before); `dispute`
and `amend` leave it disputed. -/
theorem claim_C1_amended (p : ExperiencePool) (xr_id validator_id ev : String)
    (xr : ExperienceRecord)
    (hfind : dictFind p.records xr_id = some xr)
    (hdisp : xr.validation_status = .disputed)
    (hns : validator_id ≠ xr.agent_id) :
    (dictFind (p.validate xr_id validator_id .confirm ev).2.records xr_id).map
        (·.validation_status)
      = some (if 1 ≤ xr.validator_ids.length then .validated else .disputed) ∧
    (dictFind (p.validate xr_id validator_id .dispute ev).2.records xr_id).map
        (·.validation_status) = some .disputed ∧
    (dictFind (p.validate xr_id validator_id .amend ev).2.records xr_id).map
        (·.validation_status) = some .disputed := by
  refine ⟨?_, validate_dispute_status p xr_id validator_id ev xr hfind hns, ?_⟩
  · rw [validate_confirm_status p xr_id validator_id ev xr hfind hns]
    congr 1
    by_cases h1 : 1 ≤ xr.validator_ids.length
    · rw [if_pos (by omega), if_pos h1]
    · rw [if_neg (by omega), if_neg h1, hdisp]
  · rw [validate_amend_status p xr_id validator_id ev xr hfind hns, hdisp]

/-- Claim C1 (amended), witness: the three validation types applied to
the concrete disputed record `xrDisp1`. -/
theorem claim_C1_amended_witness :
    (dictFind (poolDisp.validate "r1" "v2" .confirm "").2.records "r1").map
        (·.validation_status)
      = some (if 1 ≤ xrDisp1.validator_ids.length then .validated else .disputed) ∧
    (dictFind (poolDisp.validate "r1" "v2" .dispute "").2.records "r1").map
        (·.validation_status) = some .disputed ∧
    (dictFind (poolDisp.validate "r1" "v2" .amend "").2.records "r1").map
        (·.validation_status) = some .disputed :=
  claim_C1_amended poolDisp "r1" "v2" "" xrDisp1 rfl rfl (by decide)

/-! ## Claim C8 -/

/-- Claim C8: the confirm threshold counts every `validator_ids` entry
regardless of which validation type appended it — a pending record with
one prior entry (e.g. from an amend) becomes `validated` after a single
non-producer confirm. -/
theorem claim_C8_confirm_counts_any_entry (p : ExperiencePool)
    (xr_id validator_id ev : String) (xr : ExperienceRecord)
    (hfind : dictFind p.records xr_id = some xr)
    (hpend : xr.validation_status = .pending)
    (hone : xr.validator_ids.length = 1)
    (hns : validator_id ≠ xr.agent_id) :
    (p.validate xr_id validator_id .confirm ev).1.status = "accepted" ∧
    (dictFind (p.validate xr_id validator_id .confirm ev).2.records xr_id).map
        (·.validation_status) = some .validated := by
  refine ⟨validate_applied_status p xr_id validator_id .confirm ev xr hfind hns, ?_⟩
  rw [validate_confirm_status p xr_id validator_id ev xr hfind hns, hone]
  norm_num

/-- Claim C8, witness: `xrPend1` is pending with a single (amend-style)
validator entry; one confirm from `"v2"` validates it. -/
theorem claim_C8_witness :
    (poolPend.validate "r1" "v2" .confirm "").1.status = "accepted" ∧
    (dictFind (poolPend.validate "r1" "v2" .confirm "").2.records "r1").map
        (·.validation_status) = some .validated :=
  claim_C8_confirm_counts_any_entry poolPend "r1" "v2" "" xrPend1 rfl rfl rfl
    (by decide)

/-! ## Shape of `deposit` -/

/-- A deposit failing the schema gate returns the pool untouched. -/
theorem deposit_rejected_eq (p : ExperiencePool) (xr : ExperienceRecord)
    (h : xr.agent_id = "" ∨ xr.task_type = "") :
    p.deposit xr =
      (.rejected "Missing required fields (agent_id, task_type)", p) := by
  unfold ExperiencePool.deposit
  rw [if_pos h]

/-- The pool a valid deposit operates on after the capacity check. -/
def depositMid (p : ExperiencePool) : ExperiencePool :=
  if p.max_records ≤ p.records.length then p._evict_oldest else p

/-- The record actually stored by a valid deposit: the input with its
freshly computed confidence score. -/
def depositStored (p : ExperiencePool) (xr : ExperienceRecord) : ExperienceRecord :=
  let c :=
    (depositMid p).trust_engine.compute_trust_score xr
      ((depositMid p).records.map (·.2))
  { xr with confidence_score := c }

/-- An accepted deposit returns status `"accepted"`. -/
theorem deposit_accepted_status (p : ExperiencePool) (xr : ExperienceRecord)
    (h : ¬(xr.agent_id = "" ∨ xr.task_type = "")) :
    (p.deposit xr).1.status = "accepted" := by
  unfold ExperiencePool.deposit
  rw [if_neg h]
  rfl

/-- The record dict after an accepted deposit: the (possibly evicted)
dict with the rescored record stored under `xr.xr_id`. -/
theorem deposit_accepted_records (p : ExperiencePool) (xr : ExperienceRecord)
    (h : ¬(xr.agent_id = "" ∨ xr.task_type = "")) :
    (p.deposit xr).2.records =
      dictInsert (depositMid p).records xr.xr_id (depositStored p xr) := by
  unfold ExperiencePool.deposit ExperiencePool._log depositMid depositStored
  rw [if_neg h]
  rfl

/-- The audit log after an accepted deposit: the (possibly evicted)
pool's log plus one deposit entry. -/
theorem deposit_accepted_audit (p : ExperiencePool) (xr : ExperienceRecord)
    (h : ¬(xr.agent_id = "" ∨ xr.task_type = "")) :
    (p.deposit xr).2.audit_log =
      (depositMid p).audit_log ++
        [{ timestamp := "", operation := "deposit", actor := xr.agent_id,
           xr_ids := [xr.xr_id], outcome := "accepted" }] := by
  unfold ExperiencePool.deposit ExperiencePool._log depositMid
  rw [if_neg h]

/-! ## Claim C9 -/

/-- Claim C9: `deposit` never checks for duplicate ids — a valid record
whose `xr_id` is already stored is accepted, ends up stored under that id
(the old record is overwritten), and the insertion itself never increases
the total record count. -/
theorem claim_C9_deposit_overwrites (p : ExperiencePool) (xr old : ExperienceRecord)
    (hagent : xr.agent_id ≠ "") (htask : xr.task_type ≠ "")
    (hfind : dictFind p.records xr.xr_id = some old) :
    (p.deposit xr).1.status = "accepted" ∧
    (∃ c, dictFind (p.deposit xr).2.records xr.xr_id =
        some { xr with confidence_score := c }) ∧
    (p.deposit xr).2.records.length ≤ p.records.length := by
  have h : ¬(xr.agent_id = "" ∨ xr.task_type = "") := by
    push_neg
    exact ⟨hagent, htask⟩
  refine ⟨deposit_accepted_status p xr h, ?_, ?_⟩
  · refine ⟨(depositStored p xr).confidence_score, ?_⟩
    rw [deposit_accepted_records p xr h, dictFind_dictInsert_self]
    rfl
  · rw [deposit_accepted_records p xr h]
    unfold depositMid
    by_cases hcap : p.max_records ≤ p.records.length
    · rw [if_pos hcap]
      rcases evict_oldest_records_sub p with heq | ⟨q, heq⟩
      · rw [heq, length_dictInsert_of_find p.records xr.xr_id hfind]
      · rw [heq]
        cases hfind2 : dictFind (p.records.eraseP q) xr.xr_id with
        | some v2 =>
          rw [length_dictInsert_of_find _ _ hfind2]
          exact List.length_eraseP_le _
        | none =>
          have hlt : (p.records.eraseP q).length + 1 ≤ p.records.length := by
            rcases List.exists_or_eq_self_of_eraseP q p.records with
              heq2 | ⟨a, l1, l2, _, _, hsp, her⟩
            · rw [heq2, hfind] at hfind2
              exact absurd hfind2 (by simp)
            · rw [her, hsp]
              simp [List.length_append]
              omega
          calc (dictInsert (p.records.eraseP q) xr.xr_id (depositStored p xr)).length
              ≤ (p.records.eraseP q).length + 1 := length_dictInsert_le _ _ _
            _ ≤ p.records.length := hlt
    · rw [if_neg hcap, length_dictInsert_of_find p.records xr.xr_id hfind]

/-- Claim C9, witness: re-depositing a record with the already-stored id
`"r1"` into the concrete one-record pool. -/
theorem claim_C9_witness :
    (pool1.deposit xrBase).1.status = "accepted" ∧
    (∃ c, dictFind (pool1.deposit xrBase).2.records xrBase.xr_id =
        some { xrBase with confidence_score := c }) ∧
    (pool1.deposit xrBase).2.records.length ≤ pool1.records.length :=
  claim_C9_deposit_overwrites pool1 xrBase xrBase (by decide) (by decide) rfl

/-! ## Claim C2 -/

/-- Claim C2, counterexample: a deposit rejected for a missing
`agent_id` appends no audit entry — the log does not grow by one. -/
theorem claim_C2_counterexample :
    (poolEmpty.deposit xrNoAgent).2.audit_log.length ≠
      poolEmpty.audit_log.length + 1 := by
  rw [deposit_rejected_eq poolEmpty xrNoAgent (Or.inl rfl)]
  decide

/-- Claim C2 (amended): an accepted deposit appends exactly one audit
entry (two — an evict entry plus the deposit entry — when it triggers an
eviction from a non-empty pool at capacity); every retrieve appends
exactly one; an applied validate appends exactly one, while a validate
failing not-found or self-validation, like a rejected deposit, appends
none. -/
theorem claim_C2_amended :
    (∀ (p : ExperiencePool) (xr : ExperienceRecord),
        (p.deposit xr).2.audit_log.length =
          p.audit_log.length +
            (if xr.agent_id = "" ∨ xr.task_type = "" then 0
             else if p.max_records ≤ p.records.length ∧ p.records ≠ [] then 2
             else 1)) ∧
    (∀ (p : ExperiencePool) (tt : Option String) (mc : Option ℚ) (mr : ℕ)
        (w : ℚ) (ofil : Option OutcomeStatus) (aid : String),
        (p.retrieve tt mc mr w ofil aid).2.audit_log.length =
          p.audit_log.length + 1) ∧
    (∀ (p : ExperiencePool) (xr_id v : String) (ty : ValidationType) (ev : String),
        (p.validate xr_id v ty ev).2.audit_log.length =
          p.audit_log.length +
            (match dictFind p.records xr_id with
             | none => 0
             | some xr => if v = xr.agent_id then 0 else 1)) := by
  refine ⟨?_, ?_, ?_⟩
  · intro p xr
    by_cases hv : xr.agent_id = "" ∨ xr.task_type = ""
    · rw [deposit_rejected_eq p xr hv, if_pos hv]
      simp
    · rw [deposit_accepted_audit p xr hv, if_neg hv]
      unfold depositMid
      by_cases hcap : p.max_records ≤ p.records.length
      · rw [if_pos hcap]
        by_cases hne : p.records = []
        · rw [evict_oldest_nil p hne, if_neg (by tauto)]
          simp
        · rw [if_pos ⟨hcap, hne⟩, List.length_append, evict_oldest_audit p hne]
          simp
      · rw [if_neg hcap, if_neg (by tauto)]
        simp
  · intro p tt mc mr w ofil aid
    unfold ExperiencePool.retrieve ExperiencePool._log
    simp
  · intro p xr_id v ty ev
    cases hfind : dictFind p.records xr_id with
    | none =>
      unfold ExperiencePool.validate
      rw [hfind]
      simp
    | some xr =>
      by_cases hself : v = xr.agent_id
      · have hp : p.validate xr_id v ty ev =
            (.rejected "Self-validation not permitted", p) := by
          unfold ExperiencePool.validate
          rw [hfind, hself]
          simp
        rw [hp]
        simp [hself]
      · rw [validate_applied_audit p xr_id v ty ev xr hfind hself]
        simp [hself]

/-! ## Claim C3 -/

/-- Claim C3, counterexample: with `max_records = 0` the (empty) pool is
at its capacity, yet an accepted deposit removes nothing and leaves the
pool above capacity. -/
theorem claim_C3_counterexample :
    poolCap0.records.length = poolCap0.max_records ∧
    (poolCap0.deposit xrBase).1.status = "accepted" ∧
    poolCap0.max_records < (poolCap0.deposit xrBase).2.records.length := by
  refine ⟨rfl, deposit_accepted_status poolCap0 xrBase (by decide), ?_⟩
  rw [deposit_accepted_records poolCap0 xrBase (by decide)]
  decide

/-- Claim C3 (amended): provided `max_records ≥ 1` (and the pool dict
invariants deposit itself maintains: keys are the records' `xr_id`s and
are unique), an accepted deposit at capacity first removes exactly one
entry — one holding a record with the lexicographically smallest
`(confidence_score, timestamp)` — before inserting, and any deposit into
a pool within capacity leaves the count at most `max_records`. -/
theorem claim_C3_amended :
    (∀ (p : ExperiencePool) (xr : ExperienceRecord),
        xr.agent_id ≠ "" → xr.task_type ≠ "" →
        (∀ kv ∈ p.records, kv.1 = kv.2.xr_id) →
        (p.records.map (·.1)).Nodup →
        p.records.length = p.max_records → 1 ≤ p.max_records →
        (p.deposit xr).1.status = "accepted" ∧
        ∃ kv l₁ l₂, p.records = l₁ ++ kv :: l₂ ∧
          (∀ kv' ∈ p.records, ¬ evictLt (evictKey kv'.2) (evictKey kv.2)) ∧
          (depositMid p).records = l₁ ++ l₂ ∧
          (depositMid p).records.length + 1 = p.records.length) ∧
    (∀ (p : ExperiencePool) (xr : ExperienceRecord),
        (∀ kv ∈ p.records, kv.1 = kv.2.xr_id) →
        p.records.length ≤ p.max_records → 1 ≤ p.max_records →
        (p.deposit xr).2.records.length ≤ p.max_records) := by
  constructor
  · intro p xr hagent htask hkeys huniq hcap hmax
    have h : ¬(xr.agent_id = "" ∨ xr.task_type = "") := by
      push_neg
      exact ⟨hagent, htask⟩
    have hne : p.records ≠ [] := by
      intro hnil
      rw [hnil] at hcap
      simp at hcap
      omega
    have hmid : depositMid p = p._evict_oldest := by
      unfold depositMid
      rw [if_pos (by omega)]
    obtain ⟨kv, l₁, l₂, hsplit, hmin, hrecs, hlen⟩ :=
      evict_oldest_atomic p hkeys huniq hne
    exact ⟨deposit_accepted_status p xr h,
      kv, l₁, l₂, hsplit, hmin, by rw [hmid]; exact hrecs,
      by rw [hmid]; exact hlen⟩
  · intro p xr hkeys hle hmax
    by_cases hv : xr.agent_id = "" ∨ xr.task_type = ""
    · rw [deposit_rejected_eq p xr hv]
      exact hle
    · rw [deposit_accepted_records p xr hv]
      unfold depositMid
      by_cases hcap : p.max_records ≤ p.records.length
      · rw [if_pos hcap]
        have hne : p.records ≠ [] := by
          intro hnil
          rw [hnil] at hcap
          simp at hcap
          omega
        have hev := evict_oldest_length p hkeys hne
        calc (dictInsert p._evict_oldest.records xr.xr_id (depositStored p xr)).length
            ≤ p._evict_oldest.records.length + 1 := length_dictInsert_le _ _ _
          _ = p.records.length := hev
          _ ≤ p.max_records := hle
      · rw [if_neg hcap]
        calc (dictInsert p.records xr.xr_id (depositStored p xr)).length
            ≤ p.records.length + 1 := length_dictInsert_le _ _ _
          _ ≤ p.max_records := by omega

/-- Claim C3 (amended), witness: the concrete pool `poolCap1` (one
record, capacity one) accepting a further deposit. -/
theorem claim_C3_witness :
    ((poolCap1.deposit xrBase).1.status = "accepted" ∧
      ∃ kv l₁ l₂, poolCap1.records = l₁ ++ kv :: l₂ ∧
        (∀ kv' ∈ poolCap1.records, ¬ evictLt (evictKey kv'.2) (evictKey kv.2)) ∧
        (depositMid poolCap1).records = l₁ ++ l₂ ∧
        (depositMid poolCap1).records.length + 1 = poolCap1.records.length) ∧
    (poolCap1.deposit xrBase).2.records.length ≤ poolCap1.max_records :=
  ⟨claim_C3_amended.1 poolCap1 xrBase (by decide) (by decide)
      (by decide) (by decide) rfl (by decide),
   claim_C3_amended.2 poolCap1 xrBase (by decide) (by decide) (by decide)⟩

/-! ## Claim C6 -/

/-- Claim C6: for every record, pool content, and weight configuration
with five non-negative weights summing to 1, `compute_trust_score`
returns a value in [0,1] that is rounded to 4 decimal places (an integer
multiple of 1/10000).  (The final clamp-and-round makes this hold for
every sub-score the oracles can produce.) -/
theorem claim_C6_trust_score_range (e : TrustEngine) (xr : ExperienceRecord)
    (pool_xrs : List ExperienceRecord)
    (h1 : 0 ≤ e.weight_reputation) (h2 : 0 ≤ e.weight_validation)
    (h3 : 0 ≤ e.weight_outcome) (h4 : 0 ≤ e.weight_recency)
    (h5 : 0 ≤ e.weight_consistency)
    (hsum : e.weight_reputation + e.weight_validation + e.weight_outcome +
        e.weight_recency + e.weight_consistency = 1) :
    0 ≤ e.compute_trust_score xr pool_xrs ∧
    e.compute_trust_score xr pool_xrs ≤ 1 ∧
    ∃ n : ℤ, e.compute_trust_score xr pool_xrs = (n : ℚ) / 10000 := by
  obtain ⟨s, hs⟩ : ∃ s, e.compute_trust_score xr pool_xrs =
      round4 (max 0 (min 1 s)) := ⟨_, rfl⟩
  rw [hs]
  refine ⟨round4_nonneg (le_max_left _ _), round4_le_one ?_,
    round (max 0 (min 1 s) * 10000), rfl⟩
  exact max_le (by norm_num) (min_le_left _ _)

/-- Claim C6, witness: the default weight configuration on a concrete
record and empty pool. -/
theorem claim_C6_witness :
    0 ≤ TrustEngine.compute_trust_score {} xrBase [] ∧
    TrustEngine.compute_trust_score {} xrBase [] ≤ 1 ∧
    ∃ n : ℤ, TrustEngine.compute_trust_score {} xrBase [] = (n : ℚ) / 10000 :=
  claim_C6_trust_score_range {} xrBase []
    (by norm_num : (0:ℚ) ≤ 3/10) (by norm_num : (0:ℚ) ≤ 1/4)
    (by norm_num : (0:ℚ) ≤ 1/4) (by norm_num : (0:ℚ) ≤ 1/10)
    (by norm_num : (0:ℚ) ≤ 1/10)
    (by norm_num : (3:ℚ)/10 + 1/4 + 1/4 + 1/10 + 1/10 = 1)

/-! ## Claim C7 -/

/-- Claim C7, counterexample: a parseable timestamp 100 days in the
future (negative age) makes the recency factor `exp 1 > 1`, outside
(0,1]. -/
theorem claim_C7_counterexample :
    ¬ (compute_recency_factor (1/100) (fun _ => some (-100))
        "2999-01-01T00:00:00+00:00" ≤ 1) := by
  show ¬ (Real.exp (-(1/100 : ℝ) * (-100)) ≤ 1)
  rw [not_le]
  exact Real.one_lt_exp_iff.mpr (by norm_num)

/-- Claim C7 (amended): the recency computation returns
`exp(-decay_rate * age_days)` whenever parsing succeeds — a value in
(0,1] provided the decay rate is non-negative and the timestamp is not in
the future (`age_days ≥ 0`) — and exactly 0.5 (never an error) when the
timestamp is malformed or missing. -/
theorem claim_C7_amended :
    (∀ (decay : ℝ) (age_days_of : String → Option ℝ) (ts : String) (a : ℝ),
        age_days_of ts = some a →
        compute_recency_factor decay age_days_of ts = Real.exp (-decay * a)) ∧
    (∀ (decay : ℝ) (age_days_of : String → Option ℝ) (ts : String) (a : ℝ),
        age_days_of ts = some a → 0 ≤ decay → 0 ≤ a →
        0 < compute_recency_factor decay age_days_of ts ∧
        compute_recency_factor decay age_days_of ts ≤ 1) ∧
    (∀ (decay : ℝ) (age_days_of : String → Option ℝ) (ts : String),
        age_days_of ts = none →
        compute_recency_factor decay age_days_of ts = 1/2) := by
  refine ⟨?_, ?_, ?_⟩
  · intro decay f ts a hf
    unfold compute_recency_factor
    rw [hf]
  · intro decay f ts a hf hd ha
    unfold compute_recency_factor
    rw [hf]
    constructor
    · exact Real.exp_pos _
    · rw [Real.exp_le_one_iff]
      nlinarith
  · intro decay f ts hf
    unfold compute_recency_factor
    rw [hf]

/-- Claim C7 (amended), witness: age 0 at decay rate 0.01 gives
`exp 0 = 1 ∈ (0,1]`. -/
theorem claim_C7_witness :
    0 < compute_recency_factor (1/100) (fun _ => some 0)
        "2026-01-01T00:00:00+00:00" ∧
    compute_recency_factor (1/100) (fun _ => some 0)
        "2026-01-01T00:00:00+00:00" ≤ 1 :=
  claim_C7_amended.2.1 (1/100) (fun _ => some 0) "2026-01-01T00:00:00+00:00" 0
    rfl (by norm_num) (le_refl 0)

/-! ## Claim C4 -/

/-- Claim C4 (amended): every retrieved item scores at least the
effective `min_confidence` (argument, or pool threshold when absent),
satisfies the task-type filter when one is supplied *and non-empty* (an
empty-string filter is falsy in Python and treated as absent — the
correction), satisfies the outcome filter when supplied, carries a
relevance score `round((1-w)·confidence + w·recency, 4)`; the result list
is sorted by relevance score descending and holds at most `max_results`
items (an empty result is an ordinary value, not an error). -/
theorem claim_C4_amended (p : ExperiencePool) (task_type : Option String)
    (min_confidence : Option ℚ) (max_results : ℕ) (recency_weight : ℚ)
    (outcome_filter : Option OutcomeStatus) (agent_id : String) :
    (∀ r ∈ (p.retrieve task_type min_confidence max_results recency_weight
          outcome_filter agent_id).1,
        min_confidence.getD p.min_confidence_threshold ≤ r.confidence_score ∧
        (∀ t, task_type = some t → t ≠ "" →
            (r.task_type = t ∨ strStartsWith r.task_type (t ++ ".") = true)) ∧
        (∀ o, outcome_filter = some o → r.outcome_status = o) ∧
        (∃ ts, r.relevance_score =
            round4 ((1 - recency_weight) * r.confidence_score +
              recency_weight * p.trust_engine.recency_of ts))) ∧
    ((p.retrieve task_type min_confidence max_results recency_weight
        outcome_filter agent_id).1.Pairwise
      (fun a b => b.relevance_score ≤ a.relevance_score)) ∧
    (p.retrieve task_type min_confidence max_results recency_weight
        outcome_filter agent_id).1.length ≤ max_results := by
  simp only [ExperiencePool.retrieve]
  refine ⟨?_, ?_, ?_⟩
  · intro r hr
    simp only [List.mem_map] at hr
    obtain ⟨s, hs_take, rfl⟩ := hr
    have hs_sorted := (List.take_sublist max_results _).subset hs_take
    have hs_scored := (List.perm_insertionSort relDesc _).subset hs_sorted
    simp only [List.mem_map] at hs_scored
    obtain ⟨xr, hxr_cand, rfl⟩ := hs_scored
    simp only [List.mem_filter] at hxr_cand
    obtain ⟨hxr_mem, hxr_conf⟩ := hxr_cand
    simp only [List.mem_map] at hxr_mem
    obtain ⟨y, hy_mem, rfl⟩ := hxr_mem
    simp only [List.mem_filter] at hy_mem
    obtain ⟨hy_pool, hy_cand⟩ := hy_mem
    simp only [decide_eq_true_eq] at hxr_conf
    refine ⟨hxr_conf, ?_, ?_, ⟨y.timestamp, rfl⟩⟩
    · intro t ht hne
      simp only [isCandidate, ht, Bool.and_eq_true] at hy_cand
      have htask := hy_cand.1
      rw [if_neg hne] at htask
      rw [Bool.or_eq_true, decide_eq_true_eq] at htask
      exact htask
    · intro o ho
      simp only [isCandidate, ho, Bool.and_eq_true] at hy_cand
      have hout := hy_cand.2
      rw [decide_eq_true_eq] at hout
      exact hout
  · have hsorted : List.Sorted relDesc
        (List.insertionSort relDesc
          (((((p.records.map (·.2)).filter
                (isCandidate task_type outcome_filter)).map
              (fun xr => { xr with confidence_score :=
                p.trust_engine.compute_trust_score xr (p.records.map (·.2)) })).filter
            (fun xr => min_confidence.getD p.min_confidence_threshold ≤
              xr.confidence_score)).map
            (fun xr => ((1 - recency_weight) * xr.confidence_score +
              recency_weight * p.trust_engine.recency_of xr.timestamp, xr)))) :=
      List.sorted_insertionSort relDesc _
    have htake := List.Pairwise.sublist (List.take_sublist max_results _) hsorted
    exact List.Pairwise.map _ (fun a b h => round4_mono h) htake
  · simp only [List.length_map]
    exact List.length_take_le _ _

/-- Claim C4, counterexample: supplying the empty string as the
`task_type` filter is falsy in Python, so the filter is skipped: the
record with `task_type = "x"` is returned although `"x"` neither equals
`""` nor starts with `"" + "."`. -/
theorem claim_C4_counterexample :
    ((pool1.retrieve (some "") (some 0) 10 (1/2) none "caller").1.map
        (·.task_type)) = ["x"] ∧
    ¬ ("x" = "" ∨ strStartsWith "x" ("" ++ ".") = true) := by
  refine ⟨?_, by decide⟩
  simp [pool1, xrBase, ExperiencePool.retrieve, isCandidate, dictFind,
    dictInsert, ExperiencePool._log, TrustEngine.compute_trust_score,
    TrustEngine.get_agent_reputation, TrustEngine.compute_validation_score,
    TrustEngine.compute_outcome_score, List.insertionSort, List.orderedInsert,
    round4]
  norm_num

/-- The single item retrieved from `pool1` by the witness query:
confidence `round4(0.5) = 1/2` and relevance `round4(0.5·0.5 + 0.5·0.5)`. -/
def rItemC4 : RetrieveItem :=
  { xr_id := "r1", relevance_score := 1/2, confidence_score := 1/2,
    task_type := "x", outcome_status := .success, result_summary := "" }

/-- Evaluation of the witness query on the concrete pool. -/
theorem retrieve_pool1_eval :
    (pool1.retrieve (some "x") (some 0) 10 (1/2) none "caller").1 = [rItemC4] := by
  simp [pool1, xrBase, rItemC4, ExperiencePool.retrieve, isCandidate, dictFind,
    dictInsert, ExperiencePool._log, TrustEngine.compute_trust_score,
    TrustEngine.get_agent_reputation, TrustEngine.compute_validation_score,
    TrustEngine.compute_outcome_score, List.insertionSort, List.orderedInsert,
    strStartsWith, round4]
  norm_num [round_eq]

/-- Claim C4 (amended), witness: the concrete query on `pool1` with
filter `"x"` and threshold 0, instantiating every part of the theorem. -/
theorem claim_C4_witness :
    ((0:ℚ) ≤ rItemC4.confidence_score ∧
      (∀ t, (some "x" : Option String) = some t → t ≠ "" →
          (rItemC4.task_type = t ∨ strStartsWith rItemC4.task_type (t ++ ".") = true)) ∧
      (∀ o, (none : Option OutcomeStatus) = some o → rItemC4.outcome_status = o) ∧
      (∃ ts, rItemC4.relevance_score =
          round4 ((1 - (1:ℚ)/2) * rItemC4.confidence_score +
            (1/2) * pool1.trust_engine.recency_of ts))) ∧
    ((pool1.retrieve (some "x") (some 0) 10 (1/2) none "caller").1.Pairwise
      (fun a b => b.relevance_score ≤ a.relevance_score)) ∧
    (pool1.retrieve (some "x") (some 0) 10 (1/2) none "caller").1.length ≤ 10 := by
  have h := claim_C4_amended pool1 (some "x") (some 0) 10 (1/2) none "caller"
  refine ⟨?_, h.2.1, h.2.2⟩
  have hm : rItemC4 ∈ (pool1.retrieve (some "x") (some 0) 10 (1/2) none "caller").1 := by
    rw [retrieve_pool1_eval]
    simp
  exact h.1 rItemC4 hm
